import Mathlib

/-!
# Verification of the onit-backend ledger core

Shallow embedding of the ledger engine (`src/services/LedgerServices.js`), the
admin state machines (`src/services/AdminService.js`), and the database triggers
and audit functions installed by `src/migrations/1_add_financial_constraints.js`.

Numeric columns (`users.balance`, `wallet_ledger.amount`, `wallet_ledger.balance_after`)
are SQL `numeric` values; they are embedded as exact rationals (`ℚ`).  JavaScript
numbers handed to the ledger validator are embedded as `JsNum`, which also carries
the non-finite IEEE values so that finiteness checks are expressible.

Each service method runs inside `db.transaction` (`src/utils/db.js` lines 116-129):
`BEGIN`, run the callback, `COMMIT` on success, `ROLLBACK` on any error.  This is
embedded by `runTransaction`: a failing body leaves the database state unchanged.
-/

namespace Onit

/-- A JavaScript number as received by the ledger service: either a finite value
(embedded exactly as a rational) or one of the non-finite IEEE values. -/
inductive JsNum where
  | num (q : ℚ)
  | nan
  | posInf
  | negInf
deriving DecidableEq, Repr

/-- Embeds `Number.isFinite` on an embedded JavaScript number. -/
def JsNum.isFiniteNum : JsNum → Bool
  | .num _ => true
  | _ => false

/-- The rational value of a finite JavaScript number (0 for non-finite values;
the code only reads the value after the finiteness check has passed). -/
def JsNum.toRat : JsNum → ℚ
  | .num q => q
  | _ => 0

/-- The error taxonomy of `src/utils/errors.js`.  Each constructor keeps the
data the corresponding class stores in `details`; `databaseError` keeps the
original cause as `DatabaseError` does (lines 142-150; every construction in the
services passes the caught error as the cause, so the cause is not optional
here).  `jsError` stands for any non-`AppError` failure, e.g. an error raised
by the database driver. -/
inductive AppError where
  | validationError (message : String)
  | notFoundError (resource id : String)
  | insufficientBalanceError (available required : ℚ)
  | invalidStateError (currentState attemptedState : String)
  | ledgerMismatchError (userId : String) (stored expected : ℚ)
  | forbiddenError (message : String)
  | rateLimitError (message : String)
  | conflictError (message : String)
  | databaseError (message : String) (cause : AppError)
  | jsError (message : String)
deriving DecidableEq, Repr

/-- A row of `users` (only the columns the ledger core reads or writes). -/
structure UserRow where
  id : String
  balance : ℚ
  isBlocked : Bool
deriving DecidableEq, Repr

/-- A row of `wallet_ledger` (id, metadata and created_at omitted: no claim
reads them). -/
structure LedgerRow where
  userId : String
  type : String
  amount : ℚ
  balanceAfter : ℚ
  referenceType : String
  referenceId : String
deriving DecidableEq, Repr

/-- A row of `submissions` (columns the state machine reads or writes). -/
structure SubmissionRow where
  id : String
  userId : String
  adId : String
  status : String
deriving DecidableEq, Repr

/-- A row of `withdrawals` (columns the state machine reads or writes). -/
structure WithdrawalRow where
  id : String
  userId : String
  amount : ℚ
  status : String
deriving DecidableEq, Repr

/-- A row of `ads` (columns `approveSubmission` reads or writes). -/
structure AdRow where
  id : String
  payoutPerView : ℚ
  totalViews : Nat
deriving DecidableEq, Repr

/-- A row of `admin_logs` as written by `_logAdminAction`. -/
structure AdminLogRow where
  adminId : String
  action : String
  resourceType : String
  resourceId : String
deriving DecidableEq, Repr

/-- The database state touched by the ledger core. -/
structure DBState where
  users : List UserRow
  ledger : List LedgerRow
  submissions : List SubmissionRow
  withdrawals : List WithdrawalRow
  ads : List AdRow
  adminLogs : List AdminLogRow
deriving DecidableEq, Repr

/-- Embeds `Object.values(TRANSACTION_TYPES)` from `src/utils/constants.js`. -/
def TRANSACTION_TYPES : List String :=
  ["ad_payout", "withdrawal", "refund", "bonus", "adjustment"]

/-- Embeds `Object.values(REFERENCE_TYPES)` from `src/utils/constants.js`. -/
def REFERENCE_TYPES : List String :=
  ["submission", "withdrawal", "admin_action", "system"]

/-- Embeds `isValidEnum` from `src/utils/constants.js`: membership of the value among
the object's values. -/
def isValidEnum (value : String) (enumValues : List String) : Bool :=
  enumValues.contains value

/-- The named parameters of `LedgerService.createEntry`. -/
structure EntryParams where
  userId : String
  type : String
  amount : JsNum
  referenceType : String
  referenceId : String
deriving DecidableEq, Repr

/-- Modelled from the spec: `createEntry` calls `this._validateEntryParams(...)`
(`src/services/LedgerServices.js` line 51) but the method body is absent from
the sources under `src/`.  Spec section 4.1 gives its contract: userId non-empty;
type one of the 5 recognized transaction kinds; amount a non-zero finite number;
referenceType one of the 4 recognized kinds; referenceId non-empty; violating
any of these fails with a ValidationError before any data access.  The repo's
tests (`src/tests/ledger_service.test.js`, "Validation Tests") assert the same
behaviour. -/
def _validateEntryParams (p : EntryParams) : Except AppError Unit :=
  if p.userId = "" then
    .error (.validationError "userId is required")
  else if ! isValidEnum p.type TRANSACTION_TYPES then
    .error (.validationError "Invalid transaction type")
  else if ! p.amount.isFiniteNum then
    .error (.validationError "Amount must be a finite number")
  else if p.amount = .num 0 then
    .error (.validationError "Amount must be non-zero")
  else if ! isValidEnum p.referenceType REFERENCE_TYPES then
    .error (.validationError "Invalid reference type")
  else if p.referenceId = "" then
    .error (.validationError "referenceId is required")
  else
    .ok ()

/-- The catch clause of `createEntry` (`src/services/LedgerServices.js` lines
106-117) re-throws exactly these four operational error classes unmodified. -/
def isOperationalLedgerError : AppError → Bool
  | .validationError _ => true
  | .notFoundError _ _ => true
  | .insufficientBalanceError _ _ => true
  | .ledgerMismatchError _ _ _ => true
  | _ => false

/-- The error propagation of `createEntry` (lines 106-117): operational errors
pass through unmodified, anything else is wrapped into
`DatabaseError("Failed to create ledger entry", error)`. -/
def wrapLedgerError (e : AppError) : AppError :=
  if isOperationalLedgerError e then e
  else .databaseError "Failed to create ledger entry" e

/-- Embeds `UPDATE users SET balance = balance + delta WHERE id = uid`: every matching
row is updated (ids are unique in practice, but the embedding keeps SQL's
all-matching-rows semantics). -/
def updateUsers (l : List UserRow) (uid : String) (delta : ℚ) : List UserRow :=
  l.map fun u => if u.id = uid then { u with balance := u.balance + delta } else u

/-- The `update_user_balance` trigger function installed by
`src/migrations/1_add_financial_constraints.js` (lines 52-80): lock the user
row, add `NEW.amount` to the balance, then raise if the re-selected balance is
negative (`SELECT` with no row yields NULL, and `NULL < 0` is not true, so a
missing user does not raise). -/
def update_user_balance (st : DBState) (row : LedgerRow) : Except AppError DBState :=
  let st' := { st with users := updateUsers st.users row.userId row.amount }
  match st'.users.find? (fun u => u.id = row.userId) with
  | some u =>
      if u.balance < 0 then
        .error (.jsError "Balance cannot be negative")
      else
        .ok st'
  | none => .ok st'

/-- Embeds `INSERT INTO wallet_ledger ...` together with the `AFTER INSERT` trigger
`update_balance_on_ledger_insert` (migration lines 82-87), which fires
`update_user_balance`; a raise from the trigger aborts the insert. -/
def insertLedgerRow (st : DBState) (row : LedgerRow) : Except AppError DBState :=
  update_user_balance { st with ledger := st.ledger ++ [row] } row

/-- The user-lock read issued by `createEntry`
(`src/services/LedgerServices.js` line 61).  The SQL text is
`SELECT id, balance, FROM users WHERE id = $1 FOR UPDATE` — note the stray
comma before `FROM`, which makes the statement invalid SQL.  PostgreSQL
rejects it with a syntax error on every execution, so this query never
returns rows: the driver raises, and the raise is what the transaction sees. -/
def lockUserQuery (_st : DBState) (_userId : String) : Except AppError (Option UserRow) :=
  .error (.jsError "syntax error at or near FROM")

/-- Modelled from the spec: step 1 of the `createEntry` algorithm (spec section
4.1) — "Acquire an exclusive lock on the target user's balance row" and read
its id and balance, i.e. `SELECT id, balance FROM users WHERE id = $1 FOR
UPDATE`.  The source's query (`src/services/LedgerServices.js` line 61) is the
same statement with a stray comma that makes it invalid SQL (see
`lockUserQuery`); this definition follows the spec's wording and is used to
state what the code does once that slip is accounted for. -/
def lockUserQueryIntended (st : DBState) (userId : String) : Except AppError (Option UserRow) :=
  .ok (st.users.find? (fun u => u.id = userId))

/-- The body of `createEntry` after validation
(`src/services/LedgerServices.js` lines 59-105), parameterised by the
user-lock query so that the source's malformed query and the spec-intended
query give two instances of the same translation:
lock and read the user row; `NotFoundError` if absent; overdraft guard;
insert the ledger row (which fires the balance trigger); re-read the balance
and raise `LedgerMismatchError` when it differs from
`currentBalance + amount` by more than 0.01; otherwise return the row. -/
def createEntryWithLock
    (lock : DBState → String → Except AppError (Option UserRow))
    (p : EntryParams) (st : DBState) : Except AppError (LedgerRow × DBState) :=
  match lock st p.userId with
  | .error e => .error e
  | .ok none => .error (.notFoundError "User" p.userId)
  | .ok (some userRow) =>
    let currentBalance := userRow.balance
    let amount := p.amount.toRat
    if amount < 0 ∧ currentBalance + amount < 0 then
      .error (.insufficientBalanceError currentBalance |amount|)
    else
      let row : LedgerRow :=
        { userId := p.userId, type := p.type, amount := amount,
          balanceAfter := currentBalance + amount,
          referenceType := p.referenceType, referenceId := p.referenceId }
      match insertLedgerRow st row with
      | .error e => .error e
      | .ok st2 =>
        match st2.users.find? (fun u => u.id = p.userId) with
        | none => .error (.jsError "cannot read balance of undefined")
        | some verifyRow =>
          let newBalance := verifyRow.balance
          let expectedBalance := currentBalance + amount
          if |newBalance - expectedBalance| > 1/100 then
            .error (.ledgerMismatchError p.userId newBalance expectedBalance)
          else
            .ok (row, st2)

/-- Embeds `LedgerService.createEntry` (`src/services/LedgerServices.js` lines 47-118)
as written: validate the parameters (outside the try block), run the body with
the source's user-lock query, and map body errors through the catch clause. -/
def createEntry (p : EntryParams) (st : DBState) : Except AppError (LedgerRow × DBState) :=
  match _validateEntryParams p with
  | .error e => .error e
  | .ok _ =>
    match createEntryWithLock lockUserQuery p st with
    | .error e => .error (wrapLedgerError e)
    | .ok r => .ok r

/-- Variant of `createEntry` with the spec-intended user-lock query
(`lockUserQueryIntended`) in place of the malformed one; identical otherwise. -/
def createEntryIntended (p : EntryParams) (st : DBState) : Except AppError (LedgerRow × DBState) :=
  match _validateEntryParams p with
  | .error e => .error e
  | .ok _ =>
    match createEntryWithLock lockUserQueryIntended p st with
    | .error e => .error (wrapLedgerError e)
    | .ok r => .ok r

/-- Embeds `db.transaction` (`src/utils/db.js` lines 116-129): run the callback;
commit its state on success, roll back to the entry state on any error. -/
def runTransaction {α : Type} (f : DBState → Except AppError (α × DBState))
    (st : DBState) : Except AppError α × DBState :=
  match f st with
  | .ok (a, st2) => (.ok a, st2)
  | .error e => (.error e, st)

/-- Embeds `LedgerService.getBalance` (`src/services/LedgerServices.js` lines 126-142):
read the stored balance, `NotFoundError` if the user is absent. -/
def getBalance (st : DBState) (userId : String) : Except AppError ℚ :=
  match st.users.find? (fun u => u.id = userId) with
  | none => .error (.notFoundError "User" userId)
  | some u => .ok u.balance

/-- The SQL function `calculate_balance_from_ledger` (migration lines 279-292):
`COALESCE(SUM(amount), 0)` over the user's ledger rows. -/
def calculate_balance_from_ledger (st : DBState) (userId : String) : ℚ :=
  ((st.ledger.filter fun r => r.userId = userId).map fun r => r.amount).sum

/-- A row returned by `audit_all_balances` / `findBalanceMismatches`. -/
structure AuditRow where
  userId : String
  storedBalance : ℚ
  ledgerBalance : ℚ
  difference : ℚ
deriving DecidableEq, Repr

/-- The SQL function `audit_all_balances` (migration lines 316-334): one row
per user whose stored balance differs from the ledger sum. -/
def audit_all_balances (st : DBState) : List AuditRow :=
  (st.users.filter fun u => u.balance ≠ calculate_balance_from_ledger st u.id).map
    fun u =>
      { userId := u.id, storedBalance := u.balance,
        ledgerBalance := calculate_balance_from_ledger st u.id,
        difference := u.balance - calculate_balance_from_ledger st u.id }

/-- Embeds `LedgerService.findBalanceMismatches` (`src/services/LedgerServices.js`
lines 295-308): `SELECT * FROM audit_all_balances()`, mapped to result
objects. -/
def findBalanceMismatches (st : DBState) : List AuditRow :=
  audit_all_balances st

/-- The result of `LedgerService.getTransactionStats`. -/
structure TransactionStats where
  totalTransactions : Nat
  totalEarned : ℚ
  totalWithdrawn : ℚ
  adEarnings : ℚ
  withdrawals : ℚ
  netBalance : ℚ
deriving DecidableEq, Repr

/-- Embeds `LedgerService.getTransactionStats` (`src/services/LedgerServices.js` lines
260-288): aggregates over the user's ledger rows; `netBalance` is
`total_earned - total_withdrawn`. -/
def getTransactionStats (st : DBState) (userId : String) : TransactionStats :=
  let rows := st.ledger.filter fun r => r.userId = userId
  let totalEarned := (rows.map fun r => if 0 < r.amount then r.amount else 0).sum
  let totalWithdrawn := (rows.map fun r => if r.amount < 0 then |r.amount| else 0).sum
  { totalTransactions := rows.length
    totalEarned := totalEarned
    totalWithdrawn := totalWithdrawn
    adEarnings := (rows.map fun r => if r.type = "ad_payout" then r.amount else 0).sum
    withdrawals := (rows.map fun r => if r.type = "withdrawal" then |r.amount| else 0).sum
    netBalance := totalEarned - totalWithdrawn }

/-- Embeds `UPDATE submissions SET status = ... WHERE id = ...`. -/
def setSubmissionStatus (st : DBState) (submissionId status : String) : DBState :=
  let rows := st.submissions.map
    (fun s => if s.id = submissionId then { s with status := status } else s)
  { st with submissions := rows }

/-- Embeds `UPDATE withdrawals SET status = ... WHERE id = ...`. -/
def setWithdrawalStatus (st : DBState) (withdrawalId status : String) : DBState :=
  let rows := st.withdrawals.map
    (fun w => if w.id = withdrawalId then { w with status := status } else w)
  { st with withdrawals := rows }

/-- Embeds `AdminService._logAdminAction` (`src/services/AdminService.js` lines
1036-1052): append a row to `admin_logs`. -/
def logAdminAction (st : DBState) (adminId action resourceType resourceId : String) : DBState :=
  let row : AdminLogRow :=
    { adminId := adminId, action := action,
      resourceType := resourceType, resourceId := resourceId }
  { st with adminLogs := st.adminLogs ++ [row] }

/-- Step 6 of `approveSubmission`: `UPDATE ads SET total_views = total_views + 1
WHERE id = ...` (`src/services/AdminService.js` lines 157-161). -/
def bumpAdViews (st : DBState) (adId : String) : DBState :=
  let rows := st.ads.map
    (fun a => if a.id = adId then { a with totalViews := a.totalViews + 1 } else a)
  { st with ads := rows }

/-- The object returned by `approveSubmission`. -/
structure ApproveResult where
  submissionId : String
  status : String
  payoutAmount : ℚ
  userId : String
deriving DecidableEq, Repr

/-- The transaction body of `AdminService.approveSubmission`
(`src/services/AdminService.js` lines 92-183), parameterised by the
`createEntry` in use: lock and fetch the submission (`NotFoundError` if
absent); `InvalidStateError` if already approved or rejected; move a pending
submission to under_review; fetch the ad's payout (`NotFoundError` if the ad
is absent); credit the user through the ledger; set the submission approved;
increment the ad's view counter; log the admin action. -/
def approveSubmissionWith
    (ce : EntryParams → DBState → Except AppError (LedgerRow × DBState))
    (submissionId adminId : String) (st : DBState) :
    Except AppError (ApproveResult × DBState) :=
  match st.submissions.find? (fun s => s.id = submissionId) with
  | none => .error (.notFoundError "Submission" submissionId)
  | some submission =>
    if submission.status = "approved" then
      .error (.invalidStateError submission.status "approved")
    else if submission.status = "rejected" then
      .error (.invalidStateError submission.status "approved")
    else
      let st1 := if submission.status = "pending" then
                   setSubmissionStatus st submissionId "under_review"
                 else st
      match st1.ads.find? (fun a => a.id = submission.adId) with
      | none => .error (.notFoundError "Ad" submission.adId)
      | some ad =>
        let payoutAmount := ad.payoutPerView
        match ce { userId := submission.userId, type := "ad_payout",
                   amount := .num payoutAmount, referenceType := "submission",
                   referenceId := submissionId } st1 with
        | .error e => .error e
        | .ok (_, st2) =>
          let st3 := setSubmissionStatus st2 submissionId "approved"
          let st4 := bumpAdViews st3 submission.adId
          let st5 := logAdminAction st4 adminId "approve_submission" "submission" submissionId
          .ok ({ submissionId := submissionId, status := "approved",
                 payoutAmount := payoutAmount, userId := submission.userId }, st5)

/-- The object returned by `processWithdrawal`. -/
structure ProcessResult where
  withdrawalId : String
  status : String
  userId : String
  amount : ℚ
deriving DecidableEq, Repr

/-- The transaction body of `AdminService.processWithdrawal`
(`src/services/AdminService.js` lines 608-664), parameterised by the
`createEntry` in use: lock and fetch the withdrawal (`NotFoundError` if
absent); `InvalidStateError` unless the status is pending; debit the user
through the ledger with the negated amount; set the status to processing; log
the admin action. -/
def processWithdrawalWith
    (ce : EntryParams → DBState → Except AppError (LedgerRow × DBState))
    (withdrawalId adminId : String) (st : DBState) :
    Except AppError (ProcessResult × DBState) :=
  match st.withdrawals.find? (fun w => w.id = withdrawalId) with
  | none => .error (.notFoundError "Withdrawal" withdrawalId)
  | some withdrawal =>
    if withdrawal.status ≠ "pending" then
      .error (.invalidStateError withdrawal.status "processing")
    else
      match ce { userId := withdrawal.userId, type := "withdrawal",
                 amount := .num (-withdrawal.amount),
                 referenceType := "withdrawal", referenceId := withdrawalId } st with
      | .error e => .error e
      | .ok (_, st2) =>
        let st3 := setWithdrawalStatus st2 withdrawalId "processing"
        let st4 := logAdminAction st3 adminId "process_withdrawal" "withdrawal" withdrawalId
        .ok ({ withdrawalId := withdrawalId, status := "processing",
               userId := withdrawal.userId, amount := withdrawal.amount }, st4)

/-- Embeds `reason.trim()` as used by the failure-reason checks: strip leading and
trailing whitespace.  (Defined over the character list so that it evaluates by
kernel reduction; `String.trim` from the core library is semantically the same
but does not reduce.) -/
def jsTrim (s : String) : String :=
  ⟨((s.data.dropWhile Char.isWhitespace).reverse.dropWhile Char.isWhitespace).reverse⟩

/-- The object returned by `failWithdrawal`. -/
structure FailResult where
  withdrawalId : String
  status : String
  reason : String
  refunded : Bool
deriving DecidableEq, Repr

/-- The transaction body of `AdminService.failWithdrawal`
(`src/services/AdminService.js` lines 720-783), parameterised by the
`createEntry` in use.  The reason check (`!reason || reason.trim().length <
10`) precedes the transaction; an empty string also has trimmed length < 10,
so the single length test embeds both disjuncts.  Then: lock and fetch the
withdrawal (`NotFoundError` if absent); `InvalidStateError` unless the status
is processing; refund the user through the ledger with the original (positive)
amount; set the status to failed; log the admin action. -/
def failWithdrawalWith
    (ce : EntryParams → DBState → Except AppError (LedgerRow × DBState))
    (withdrawalId adminId reason : String) (st : DBState) :
    Except AppError (FailResult × DBState) :=
  if (jsTrim reason).length < 10 then
    .error (.validationError "Failure reason must be at least 10 characters")
  else
    match st.withdrawals.find? (fun w => w.id = withdrawalId) with
    | none => .error (.notFoundError "Withdrawal" withdrawalId)
    | some withdrawal =>
      if withdrawal.status ≠ "processing" then
        .error (.invalidStateError withdrawal.status "failed")
      else
        match ce { userId := withdrawal.userId, type := "refund",
                   amount := .num withdrawal.amount,
                   referenceType := "withdrawal", referenceId := withdrawalId } st with
        | .error e => .error e
        | .ok (_, st2) =>
          let st3 := setWithdrawalStatus st2 withdrawalId "failed"
          let st4 := logAdminAction st3 adminId "fail_withdrawal" "withdrawal" withdrawalId
          .ok ({ withdrawalId := withdrawalId, status := "failed",
                 reason := reason, refunded := true }, st4)

/-- Embeds `approveSubmission` as the caller sees it: the body run inside
`db.transaction`, with the source's `createEntry`. -/
def approveSubmission (submissionId adminId : String) (st : DBState) :
    Except AppError ApproveResult × DBState :=
  runTransaction (approveSubmissionWith createEntry submissionId adminId) st

/-- Embeds `processWithdrawal` as the caller sees it. -/
def processWithdrawal (withdrawalId adminId : String) (st : DBState) :
    Except AppError ProcessResult × DBState :=
  runTransaction (processWithdrawalWith createEntry withdrawalId adminId) st

/-- Embeds `failWithdrawal` as the caller sees it. -/
def failWithdrawal (withdrawalId adminId reason : String) (st : DBState) :
    Except AppError FailResult × DBState :=
  runTransaction (failWithdrawalWith createEntry withdrawalId adminId reason) st

/-- A bare `createEntry` call wrapped in its own transaction, the way the
tests and callers outside the admin flows invoke it. -/
def createEntryTx (p : EntryParams) (st : DBState) :
    Except AppError LedgerRow × DBState :=
  runTransaction (createEntry p) st

/-- The spec-intended variants of the three admin operations: identical
transaction bodies, but calling `createEntryIntended`. -/
def approveSubmissionIntended (submissionId adminId : String) (st : DBState) :
    Except AppError ApproveResult × DBState :=
  runTransaction (approveSubmissionWith createEntryIntended submissionId adminId) st

/-- See `approveSubmissionIntended`. -/
def processWithdrawalIntended (withdrawalId adminId : String) (st : DBState) :
    Except AppError ProcessResult × DBState :=
  runTransaction (processWithdrawalWith createEntryIntended withdrawalId adminId) st

/-- See `approveSubmissionIntended`. -/
def failWithdrawalIntended (withdrawalId adminId reason : String) (st : DBState) :
    Except AppError FailResult × DBState :=
  runTransaction (failWithdrawalWith createEntryIntended withdrawalId adminId reason) st

/-- See `approveSubmissionIntended`. -/
def createEntryTxIntended (p : EntryParams) (st : DBState) :
    Except AppError LedgerRow × DBState :=
  runTransaction (createEntryIntended p) st

/-- One operation of the histories quantified over by the invariant claims:
the four balance-affecting operations named in the spec's testable
properties. -/
inductive Op where
  | createEntry (p : EntryParams)
  | approveSubmission (submissionId adminId : String)
  | processWithdrawal (withdrawalId adminId : String)
  | failWithdrawal (withdrawalId adminId reason : String)
deriving DecidableEq, Repr

/-- The state after one operation, successful or rolled back, with the
source's `createEntry`. -/
def stepOp (op : Op) (st : DBState) : DBState :=
  match op with
  | .createEntry p => (createEntryTx p st).2
  | .approveSubmission sid aid => (approveSubmission sid aid st).2
  | .processWithdrawal wid aid => (processWithdrawal wid aid st).2
  | .failWithdrawal wid aid reason => (failWithdrawal wid aid reason st).2

/-- The state after a sequence of operations. -/
def runOps (ops : List Op) (st : DBState) : DBState :=
  ops.foldl (fun s op => stepOp op s) st

/-- Version of `stepOp` with the spec-intended `createEntry`. -/
def stepOpIntended (op : Op) (st : DBState) : DBState :=
  match op with
  | .createEntry p => (createEntryTxIntended p st).2
  | .approveSubmission sid aid => (approveSubmissionIntended sid aid st).2
  | .processWithdrawal wid aid => (processWithdrawalIntended wid aid st).2
  | .failWithdrawal wid aid reason => (failWithdrawalIntended wid aid reason st).2

/-- Version of `runOps` with the spec-intended `createEntry`. -/
def runOpsIntended (ops : List Op) (st : DBState) : DBState :=
  ops.foldl (fun s op => stepOpIntended op s) st

/-- Spec section 8, first invariant: every user's stored balance equals the
ledger sum for that user. -/
def balancesConsistent (st : DBState) : Prop :=
  ∀ u ∈ st.users, u.balance = calculate_balance_from_ledger st u.id

/-- Spec section 8, second invariant: no user's stored balance is negative. -/
def balancesNonneg (st : DBState) : Prop :=
  ∀ u ∈ st.users, 0 ≤ u.balance

/-- The combined ledger invariant: stored balances match the ledger sums and
are non-negative. -/
def LedgerInv (st : DBState) : Prop :=
  balancesConsistent st ∧ balancesNonneg st

/-- Decidable equality of `Except` results, for evaluating concrete runs. -/
instance {ε : Type} {α : Type} [DecidableEq ε] [DecidableEq α] :
    DecidableEq (Except ε α) := fun a b =>
  match a, b with
  | .error e, .error f =>
    if h : e = f then .isTrue (by rw [h]) else .isFalse (by intro hc; cases hc; exact h rfl)
  | .error _, .ok _ => .isFalse (by intro h; cases h)
  | .ok _, .error _ => .isFalse (by intro h; cases h)
  | .ok x, .ok y =>
    if h : x = y then .isTrue (by rw [h]) else .isFalse (by intro hc; cases hc; exact h rfl)

/-- The failure every `createEntry` call actually produces once validation has
passed: the malformed user-lock query (see `lockUserQuery`) raises, and the
catch clause wraps the raise into a `DatabaseError`. -/
def ledgerSyntaxFailure : AppError :=
  .databaseError "Failed to create ledger entry" (.jsError "syntax error at or near FROM")

/-- A small concrete database for the concrete-evaluation theorems: one user
with stored balance 5 backed by a single +5 bonus entry (the spec's section 8
scenario state), a pending submission for an ad paying 10, a pending
withdrawal of 3 and a processing withdrawal of 4. -/
def sampleState : DBState :=
  { users := [{ id := "u1", balance := 5, isBlocked := false }]
    ledger := [{ userId := "u1", type := "bonus", amount := 5, balanceAfter := 5,
                 referenceType := "system", referenceId := "u1" }]
    submissions := [{ id := "s1", userId := "u1", adId := "a1", status := "pending" }]
    withdrawals := [{ id := "w1", userId := "u1", amount := 3, status := "pending" },
                    { id := "w2", userId := "u1", amount := 4, status := "processing" }]
    ads := [{ id := "a1", payoutPerView := 10, totalViews := 0 }]
    adminLogs := [] }

/-- The spec's section 8 overdraft scenario: `createEntry(-100, withdrawal)`
against a balance of 5. -/
def overdraftParams : EntryParams :=
  { userId := "u1", type := "withdrawal", amount := .num (-100),
    referenceType := "system", referenceId := "u1" }

/-- A plainly valid credit: `createEntry(+10, bonus)`. -/
def creditParams : EntryParams :=
  { userId := "u1", type := "bonus", amount := .num 10,
    referenceType := "system", referenceId := "u1" }

/-- Parameters with an unrecognized transaction type, as in the repo's
"Rejects invalid transaction type" test. -/
def invalidTypeParams : EntryParams :=
  { userId := "u1", type := "invalid_type", amount := .num 10,
    referenceType := "system", referenceId := "u1" }

/-- The claim-C4 precondition violations: the parameter vectors the spec says
`_validateEntryParams` must reject. -/
def violatesEntryParams (p : EntryParams) : Prop :=
  p.userId = "" ∨ isValidEnum p.type TRANSACTION_TYPES = false ∨
  p.amount.isFiniteNum = false ∨ p.amount = .num 0 ∨
  isValidEnum p.referenceType REFERENCE_TYPES = false ∨ p.referenceId = ""

/-- Observer: how many ad_payout entries reference `(submission, sid)`. -/
def payoutEntriesFor (st : DBState) (sid : String) : Nat :=
  st.ledger.countP fun r =>
    r.type = "ad_payout" && r.referenceType = "submission" && r.referenceId = sid

/-- Observer: how many withdrawal (debit) entries reference `(withdrawal, wid)`. -/
def debitEntriesFor (st : DBState) (wid : String) : Nat :=
  st.ledger.countP fun r =>
    r.type = "withdrawal" && r.referenceType = "withdrawal" && r.referenceId = wid

/-- Observer: how many refund entries reference `(withdrawal, wid)`. -/
def refundEntriesFor (st : DBState) (wid : String) : Nat :=
  st.ledger.countP fun r =>
    r.type = "refund" && r.referenceType = "withdrawal" && r.referenceId = wid

/-- The ledger row `createEntry` inserts when the locked read returned a
balance of `b`: amount and `balance_after = b + amount` as in the `INSERT` at
`src/services/LedgerServices.js` lines 75-90. -/
def entryRowOf (p : EntryParams) (b : ℚ) : LedgerRow :=
  { userId := p.userId, type := p.type, amount := p.amount.toRat,
    balanceAfter := b + p.amount.toRat,
    referenceType := p.referenceType, referenceId := p.referenceId }

/-- The database state after a successful ledger insert: the row appended and
the user's balance advanced by the row's amount (the `AFTER INSERT` trigger). -/
def postEntryState (st : DBState) (row : LedgerRow) : DBState :=
  { st with users := updateUsers st.users row.userId row.amount,
            ledger := st.ledger ++ [row] }

/-! ## Theorems

First, the shape of every `createEntry` run in the code as written: because
the user-lock query is malformed SQL (see `lockUserQuery`), any call that
survives parameter validation fails, so each of the four balance-affecting
operations always rolls back. -/

/-- Every `createEntry` call fails: either at validation, or at the malformed
user-lock query. -/
theorem createEntry_isError (p : EntryParams) (st : DBState) :
    ∃ e, createEntry p st = .error e := by
  unfold createEntry
  cases h : _validateEntryParams p with
  | error e => exact ⟨e, rfl⟩
  | ok u => exact ⟨ledgerSyntaxFailure, rfl⟩

/-- Every `approveSubmission` transaction body fails. -/
theorem approveSubmissionWith_isError (sid aid : String) (st : DBState) :
    ∃ e, approveSubmissionWith createEntry sid aid st = .error e := by
  unfold approveSubmissionWith
  split
  · exact ⟨_, rfl⟩
  · split_ifs
    · exact ⟨_, rfl⟩
    · exact ⟨_, rfl⟩
    all_goals dsimp only
    all_goals split
    · exact ⟨_, rfl⟩
    · obtain ⟨e, he⟩ := createEntry_isError _ _
      rw [he]
      exact ⟨e, rfl⟩
    · exact ⟨_, rfl⟩
    · obtain ⟨e, he⟩ := createEntry_isError _ _
      rw [he]
      exact ⟨e, rfl⟩

/-- Every `processWithdrawal` transaction body fails. -/
theorem processWithdrawalWith_isError (wid aid : String) (st : DBState) :
    ∃ e, processWithdrawalWith createEntry wid aid st = .error e := by
  unfold processWithdrawalWith
  split
  · exact ⟨_, rfl⟩
  · split_ifs
    · exact ⟨_, rfl⟩
    · obtain ⟨e, he⟩ := createEntry_isError _ _
      rw [he]
      exact ⟨e, rfl⟩

/-- Every `failWithdrawal` transaction body fails. -/
theorem failWithdrawalWith_isError (wid aid reason : String) (st : DBState) :
    ∃ e, failWithdrawalWith createEntry wid aid reason st = .error e := by
  unfold failWithdrawalWith
  split_ifs
  · exact ⟨_, rfl⟩
  · split
    · exact ⟨_, rfl⟩
    · split_ifs
      · exact ⟨_, rfl⟩
      · obtain ⟨e, he⟩ := createEntry_isError _ _
        rw [he]
        exact ⟨e, rfl⟩

/-- Each balance-affecting operation rolls back, leaving the state unchanged. -/
theorem stepOp_id (op : Op) (st : DBState) : stepOp op st = st := by
  cases op with
  | createEntry p =>
    obtain ⟨e, he⟩ := createEntry_isError p st
    simp [stepOp, createEntryTx, runTransaction, he]
  | approveSubmission sid aid =>
    obtain ⟨e, he⟩ := approveSubmissionWith_isError sid aid st
    simp [stepOp, approveSubmission, runTransaction, he]
  | processWithdrawal wid aid =>
    obtain ⟨e, he⟩ := processWithdrawalWith_isError wid aid st
    simp [stepOp, processWithdrawal, runTransaction, he]
  | failWithdrawal wid aid reason =>
    obtain ⟨e, he⟩ := failWithdrawalWith_isError wid aid reason st
    simp [stepOp, failWithdrawal, runTransaction, he]

/-- A sequence of balance-affecting operations leaves the state unchanged. -/
theorem runOps_id (ops : List Op) (st : DBState) : runOps ops st = st := by
  induction ops generalizing st with
  | nil => rfl
  | cons op ops ih =>
    show runOps ops (stepOp op st) = st
    rw [stepOp_id]
    exact ih st

/-- A consistent state yields no reconciliation rows. -/
theorem findBalanceMismatches_eq_nil (st : DBState) (h : balancesConsistent st) :
    findBalanceMismatches st = [] := by
  unfold findBalanceMismatches audit_all_balances
  have hf : (st.users.filter fun u => u.balance ≠ calculate_balance_from_ledger st u.id) = [] := by
    rw [List.filter_eq_nil_iff]
    intro u hu
    simp [h u hu]
  rw [hf]
  rfl

/-- Claim C1: after any sequence of the four balance-affecting operations on a
state whose stored balances match the ledger sums, every user's stored balance
still equals the sum of that user's ledger amounts (exactly, hence within any
floating tolerance), and `findBalanceMismatches` returns the empty list.  (In
the code as written this is immediate: every such operation rolls back — see
`runOps_id` — so the ledger/balance pair is never modified at all;
`inv_preserved_intended` below proves the same invariant for the spec-intended
lock query, where the operations do succeed.) -/
theorem c1_stored_balance_matches_ledger (ops : List Op) (st0 : DBState)
    (h : balancesConsistent st0) :
    balancesConsistent (runOps ops st0) ∧ findBalanceMismatches (runOps ops st0) = [] := by
  rw [runOps_id]
  exact ⟨h, findBalanceMismatches_eq_nil st0 h⟩

/-- Witness for C1 at a concrete consistent state and operation sequence. -/
theorem c1_stored_balance_matches_ledger_witness :
    balancesConsistent sampleState ∧
      (balancesConsistent (runOps [.processWithdrawal "w1" "admin1"] sampleState) ∧
        findBalanceMismatches (runOps [.processWithdrawal "w1" "admin1"] sampleState) = []) := by
  have h : balancesConsistent sampleState := by
    intro u hu
    simp only [sampleState, List.mem_singleton] at hu
    subst hu
    simp [calculate_balance_from_ledger, sampleState]
  exact ⟨h, c1_stored_balance_matches_ledger [.processWithdrawal "w1" "admin1"] sampleState h⟩

/-- Claim C2: after any sequence of the four balance-affecting operations —
each of which either succeeds or fails and rolls back — no user's stored
balance is negative, provided none was negative initially.  (In the code as
written every operation rolls back, see `runOps_id`;
`inv_preserved_intended` below proves the invariant for the spec-intended
lock query.) -/
theorem c2_balance_never_negative (ops : List Op) (st0 : DBState)
    (h : balancesNonneg st0) : balancesNonneg (runOps ops st0) := by
  rw [runOps_id]
  exact h

/-- Witness for C2 at a concrete state and operation sequence. -/
theorem c2_balance_never_negative_witness :
    balancesNonneg sampleState ∧
      balancesNonneg (runOps [.createEntry overdraftParams, .failWithdrawal "w2" "admin1" "bank rejected the transfer"] sampleState) := by
  have h : balancesNonneg sampleState := by
    intro u hu
    simp only [sampleState, List.mem_singleton] at hu
    subst hu
    norm_num
  exact ⟨h, c2_balance_never_negative _ sampleState h⟩

/-! ### The spec-intended ledger write

`createEntryIntended` differs from `createEntry` only in using the well-formed
user-lock query.  The lemmas here characterise it and are used both to show
that the claims about the post-validation behaviour are what the code intends,
and to prove the balance invariants non-trivially. -/

/-- The balance `UPDATE ... WHERE id = uid` moves the first row `find?` sees to its
updated image; the update does not change ids. -/
theorem find?_updateUsers (l : List UserRow) (uid : String) (a : ℚ) (u : UserRow)
    (h : l.find? (fun x => x.id = uid) = some u) :
    (updateUsers l uid a).find? (fun x => x.id = uid) =
      some { u with balance := u.balance + a } := by
  induction l with
  | nil => simp [List.find?] at h
  | cons x xs ih =>
    unfold updateUsers at ih ⊢
    by_cases hx : x.id = uid
    · rw [List.find?_cons_of_pos _ (by simp [hx])] at h
      injection h with h
      subst h
      simp only [List.map_cons, if_pos hx]
      exact List.find?_cons_of_pos _ (by simp [hx])
    · rw [List.find?_cons_of_neg _ (by simp [hx])] at h
      simp only [List.map_cons, if_neg hx]
      rw [List.find?_cons_of_neg _ (by simp [hx])]
      exact ih h

/-- With the spec-intended lock query, a validated entry for an existing user
that passes the overdraft guard and keeps the balance non-negative succeeds:
the returned row carries `balanceAfter = balance + amount`, the row is
appended, and the balance is advanced — and the post-write verification step
never raises, because the re-read balance equals the expected one exactly. -/
theorem createEntryIntended_ok (p : EntryParams) (st : DBState) (u : UserRow)
    (hval : _validateEntryParams p = .ok ())
    (hfind : st.users.find? (fun x => x.id = p.userId) = some u)
    (hguard : ¬(p.amount.toRat < 0 ∧ u.balance + p.amount.toRat < 0))
    (hnn : 0 ≤ u.balance + p.amount.toRat) :
    createEntryIntended p st =
      .ok (entryRowOf p u.balance, postEntryState st (entryRowOf p u.balance)) := by
  unfold createEntryIntended
  rw [hval]
  unfold createEntryWithLock lockUserQueryIntended
  rw [hfind]
  dsimp only
  rw [if_neg hguard]
  unfold insertLedgerRow update_user_balance
  dsimp only
  rw [find?_updateUsers _ _ _ _ hfind]
  dsimp only
  rw [if_neg (not_lt.mpr hnn)]
  dsimp only
  rw [find?_updateUsers _ _ _ _ hfind]
  dsimp only
  rw [if_neg (by rw [sub_self, abs_zero]; norm_num)]
  rfl

/-- With the spec-intended lock query, a validated debit that would overdraw
an existing user fails with `InsufficientBalanceError(available = balance,
required = |amount|)` and the transaction rolls back: balance and ledger are
unchanged. -/
theorem createEntryIntended_overdraft (p : EntryParams) (st : DBState) (u : UserRow)
    (hval : _validateEntryParams p = .ok ())
    (hfind : st.users.find? (fun x => x.id = p.userId) = some u)
    (hneg : p.amount.toRat < 0)
    (hover : u.balance + p.amount.toRat < 0) :
    createEntryTxIntended p st =
      (.error (.insufficientBalanceError u.balance |p.amount.toRat|), st) := by
  unfold createEntryTxIntended runTransaction createEntryIntended
  rw [hval]
  unfold createEntryWithLock lockUserQueryIntended
  rw [hfind]
  dsimp only
  rw [if_pos ⟨hneg, hover⟩]
  rfl

/-- Claim C3: the claim describes the spec's overdraft scenario — valid
parameters, an existing user with balance 5, `createEntry(-100, withdrawal)` —
and says the call fails with `InsufficientBalanceError(available=5,
required=100)`.  The code instead fails earlier: its user-lock query
`SELECT id, balance, FROM users WHERE id = $1 FOR UPDATE` is invalid SQL
(stray comma), so the call fails with a `DatabaseError` wrapping the SQL
syntax error before the balance is ever read.  The state is still rolled back
(balance stays 5, no entry), but the error class contradicts the claim.
`createEntryIntended_overdraft` shows the claimed behaviour is exactly what
the code produces once the malformed query is repaired. -/
theorem c3_overdraft_gives_database_error :
    _validateEntryParams overdraftParams = .ok () ∧
    getBalance sampleState "u1" = .ok 5 ∧
    (5 : ℚ) + (-100) < 0 ∧
    createEntryTx overdraftParams sampleState = (.error ledgerSyntaxFailure, sampleState) ∧
    getBalance (createEntryTx overdraftParams sampleState).2 "u1" = .ok 5 :=
  ⟨by decide, by decide, by norm_num, by decide, by decide⟩

/-- Consequence of a validation failure: the whole transaction returns the
`ValidationError` and the state is untouched. -/
theorem createEntryTx_of_validation_error (p : EntryParams) (msg : String)
    (h : _validateEntryParams p = .error (.validationError msg)) (st : DBState) :
    createEntryTx p st = (.error (.validationError msg), st) := by
  unfold createEntryTx runTransaction createEntry
  rw [h]

/-- Claim C4: any call violating one of the preconditions — empty userId,
unrecognized type, zero or non-finite amount, unrecognized referenceType,
empty referenceId — fails with a `ValidationError` computed from the
parameters alone, before any data access: the same error is returned for
every database state, and the state is unchanged.  (`_validateEntryParams`
takes only the parameters, so no query can be issued by it.) -/
theorem c4_validation_before_any_data_access (p : EntryParams)
    (h : violatesEntryParams p) :
    ∃ msg, _validateEntryParams p = .error (.validationError msg) ∧
      ∀ st : DBState, createEntryTx p st = (.error (.validationError msg), st) := by
  have main : ∃ msg, _validateEntryParams p = .error (.validationError msg) := by
    unfold _validateEntryParams
    by_cases h1 : p.userId = ""
    · rw [if_pos h1]; exact ⟨_, rfl⟩
    · rw [if_neg h1]
      by_cases h2 : isValidEnum p.type TRANSACTION_TYPES = true
      · rw [if_neg (by simp [h2])]
        by_cases h3 : p.amount.isFiniteNum = true
        · rw [if_neg (by simp [h3])]
          by_cases h4 : p.amount = .num 0
          · rw [if_pos h4]; exact ⟨_, rfl⟩
          · rw [if_neg h4]
            by_cases h5 : isValidEnum p.referenceType REFERENCE_TYPES = true
            · rw [if_neg (by simp [h5])]
              by_cases h6 : p.referenceId = ""
              · rw [if_pos h6]; exact ⟨_, rfl⟩
              · exfalso
                unfold violatesEntryParams at h
                rcases h with h | h | h | h | h | h <;> simp_all
            · rw [if_pos (by simp [h5])]; exact ⟨_, rfl⟩
        · rw [if_pos (by simp [h3])]; exact ⟨_, rfl⟩
      · rw [if_pos (by simp [h2])]; exact ⟨_, rfl⟩
  obtain ⟨msg, hval⟩ := main
  exact ⟨msg, hval, fun st => createEntryTx_of_validation_error _ _ hval st⟩

/-- Witness for C4 at a concrete invalid parameter vector and state. -/
theorem c4_validation_before_any_data_access_witness :
    violatesEntryParams invalidTypeParams ∧
      ∃ msg, _validateEntryParams invalidTypeParams = .error (.validationError msg) ∧
        createEntryTx invalidTypeParams sampleState = (.error (.validationError msg), sampleState) := by
  have h : violatesEntryParams invalidTypeParams := Or.inr (Or.inl (by decide))
  obtain ⟨msg, h1, h2⟩ := c4_validation_before_any_data_access invalidTypeParams h
  exact ⟨h, msg, h1, h2 sampleState⟩

/-- Claim C5: the claim describes what happens after validation, the
user-existence check and the overdraft guard all pass.  In the code as
written no call ever gets that far: the user-existence check itself is the
malformed lock query (see `lockUserQuery`), so even a plainly valid credit
for an existing user fails with a `DatabaseError` and the insert, balance
write and re-read verification are unreachable.  `createEntryIntended_ok`
shows that with the intended query the claim's description is exact: the
entry is returned with `balanceAfter = currentBalance + amount` and the
re-read can never differ from it, so `LedgerMismatchError` is never raised. -/
theorem c5_verification_step_unreachable :
    _validateEntryParams creditParams = .ok () ∧
    sampleState.users.find? (fun x => x.id = "u1") = some ⟨"u1", 5, false⟩ ∧
    createEntryTx creditParams sampleState = (.error ledgerSyntaxFailure, sampleState) :=
  ⟨by decide, by decide, by decide⟩

/-- Claim C6: the claim says the first `approveSubmission` on a pending
submission returns status approved, pays exactly one ad_payout entry, and the
second call fails with `InvalidStateError`.  In the code as written the first
call already fails: the submission and ad are found, but the ledger credit
dies on the malformed lock query, the transaction rolls back, and the
submission stays pending — so no call ever returns approved and no payout
entry is ever written (after two calls the count is still 0, not 1).
`approve_twice_intended` below shows the claimed behaviour holds with the
intended lock query. -/
theorem c6_approve_twice_actual_behaviour :
    (approveSubmission "s1" "admin1" sampleState).1 = .error ledgerSyntaxFailure ∧
    (approveSubmission "s1" "admin1" sampleState).2 = sampleState ∧
    payoutEntriesFor
      (approveSubmission "s1" "admin1" (approveSubmission "s1" "admin1" sampleState).2).2
      "s1" = 0 ∧
    (sampleState.submissions.find? (fun s => s.id = "s1")).map (fun s => s.status) =
      some "pending" :=
  ⟨by decide, by decide, by decide, by decide⟩

/-- Claim C7: the claim says `processWithdrawal` on a pending withdrawal
succeeds, writes exactly one debit entry and moves the status to processing,
and that a second call fails with `InvalidStateError`.  In the code as
written the first call already fails with a `DatabaseError` (malformed lock
query inside the ledger debit) and rolls back: the status stays pending and
no debit entry is ever written.  `process_twice_intended` below shows the
claimed behaviour holds with the intended lock query. -/
theorem c7_process_withdrawal_actual_behaviour :
    (processWithdrawal "w1" "admin1" sampleState).1 = .error ledgerSyntaxFailure ∧
    (processWithdrawal "w1" "admin1" sampleState).2 = sampleState ∧
    debitEntriesFor (processWithdrawal "w1" "admin1" sampleState).2 "w1" = 0 ∧
    ((processWithdrawal "w1" "admin1" sampleState).2.withdrawals.find?
        (fun w => w.id = "w1")).map (fun w => w.status) = some "pending" :=
  ⟨by decide, by decide, by decide, by decide⟩

/-- Claim C8: the claim describes the debit/refund round trip.  In the code as
written neither half can happen: `processWithdrawal` on the pending
withdrawal fails with a `DatabaseError` (so the balance never becomes b - a),
and `failWithdrawal` on a processing withdrawal fails the same way inside the
refund credit (so no refund entry is written and the status stays
processing).  `roundtrip_intended` below shows the claimed round trip holds
with the intended lock query. -/
theorem c8_roundtrip_actual_behaviour :
    (processWithdrawal "w1" "admin1" sampleState).1 = .error ledgerSyntaxFailure ∧
    (failWithdrawal "w2" "admin1" "bank rejected the transfer" sampleState).1 =
      .error ledgerSyntaxFailure ∧
    (failWithdrawal "w2" "admin1" "bank rejected the transfer" sampleState).2 = sampleState ∧
    refundEntriesFor (failWithdrawal "w2" "admin1" "bank rejected the transfer" sampleState).2
      "w2" = 0 ∧
    getBalance (failWithdrawal "w2" "admin1" "bank rejected the transfer" sampleState).2 "u1" =
      .ok 5 :=
  ⟨by decide, by decide, by decide, by decide, by decide⟩

/-- Claim C9: inside `createEntry`, the four operational error classes —
ValidationError, NotFoundError, InsufficientBalanceError, LedgerMismatchError
— propagate to the caller unmodified; every other failure surfaces as a
`DatabaseError` that carries the original error as its cause; and no error is
swallowed: a validation failure or a failing body always yields a failing
`createEntry`. -/
theorem c9_error_propagation :
    (∀ e, isOperationalLedgerError e = true → wrapLedgerError e = e) ∧
    (∀ e, isOperationalLedgerError e = false →
      wrapLedgerError e = .databaseError "Failed to create ledger entry" e) ∧
    (∀ (p : EntryParams) (st : DBState) (e : AppError),
      _validateEntryParams p = .error e → createEntry p st = .error e) ∧
    (∀ (p : EntryParams) (st : DBState) (e : AppError),
      _validateEntryParams p = .ok () →
      createEntryWithLock lockUserQuery p st = .error e →
      createEntry p st = .error (wrapLedgerError e)) := by
  refine ⟨?_, ?_, ?_, ?_⟩
  · intro e he
    unfold wrapLedgerError
    rw [if_pos he]
  · intro e he
    unfold wrapLedgerError
    rw [if_neg (by simp [he])]
  · intro p st e h
    unfold createEntry
    rw [h]
  · intro p st e hval hbody
    unfold createEntry
    rw [hval, hbody]

/-- Witness for C9: a NotFoundError passes through the catch unmodified, a
driver-level error is wrapped with its cause preserved, and a validation
failure propagates out of `createEntry` as-is. -/
theorem c9_error_propagation_witness :
    wrapLedgerError (.notFoundError "User" "u1") = .notFoundError "User" "u1" ∧
    wrapLedgerError (.jsError "connection reset") =
      .databaseError "Failed to create ledger entry" (.jsError "connection reset") ∧
    createEntry invalidTypeParams sampleState =
      .error (.validationError "Invalid transaction type") :=
  ⟨c9_error_propagation.1 _ rfl, c9_error_propagation.2.1 _ rfl,
    c9_error_propagation.2.2.1 invalidTypeParams sampleState _ (by decide)⟩

/-- Positive parts minus absolute negative parts telescopes to the plain sum. -/
theorem posPart_sub_negPart (rows : List LedgerRow) :
    (rows.map fun r => if 0 < r.amount then r.amount else 0).sum -
      (rows.map fun r => if r.amount < 0 then |r.amount| else 0).sum =
      (rows.map fun r => r.amount).sum := by
  induction rows with
  | nil => simp
  | cons r rows ih =>
    simp only [List.map_cons, List.sum_cons]
    rcases lt_trichotomy r.amount 0 with h | h | h
    · rw [if_neg (by linarith), if_pos h, abs_of_neg h]
      linarith
    · rw [if_neg (by rw [h]; exact lt_irrefl 0), if_neg (by rw [h]; exact lt_irrefl 0), h]
      linarith
    · rw [if_pos h, if_neg (by linarith)]
      linarith

/-- Claim C10: for every database state and user,
`getTransactionStats(userId).netBalance` — the total of positive amounts
minus the total of absolute values of negative amounts — equals
`calculateBalanceFromLedger(userId)`, the plain sum of the user's entry
amounts.  (The identity needs no non-zero assumption: a zero amount
contributes 0 to both sides, although the `amount_not_zero` constraint rules
such entries out anyway.) -/
theorem c10_netBalance_eq_ledger_sum (st : DBState) (userId : String) :
    (getTransactionStats st userId).netBalance = calculate_balance_from_ledger st userId := by
  unfold getTransactionStats calculate_balance_from_ledger
  exact posPart_sub_negPart (st.ledger.filter fun r => r.userId = userId)

/-- Appending a ledger row adds its amount to the ledger sum of its user and
leaves other users' sums unchanged. -/
theorem calc_postEntryState (st : DBState) (row : LedgerRow) (uid : String) :
    calculate_balance_from_ledger (postEntryState st row) uid =
      calculate_balance_from_ledger st uid + (if row.userId = uid then row.amount else 0) := by
  unfold postEntryState calculate_balance_from_ledger
  dsimp only
  rw [List.filter_append, List.map_append, List.sum_append]
  split_ifs with h
  · simp [h]
  · simp [h]

/-- A successful ledger write (row appended, balances advanced by the trigger)
preserves the combined invariant, provided the first matching user's new
balance is non-negative. -/
theorem postEntryState_preserves_inv (st : DBState) (p : EntryParams) (u : UserRow)
    (hInv : LedgerInv st)
    (hfind : st.users.find? (fun x => x.id = p.userId) = some u)
    (hnn : 0 ≤ u.balance + p.amount.toRat) :
    LedgerInv (postEntryState st (entryRowOf p u.balance)) := by
  obtain ⟨hcons, hpos⟩ := hInv
  have humem : u ∈ st.users := List.mem_of_find?_eq_some hfind
  have huid : u.id = p.userId := by
    have := List.find?_some hfind
    simpa using this
  have hub : u.balance = calculate_balance_from_ledger st p.userId := by
    rw [← huid]
    exact hcons u humem
  constructor
  · intro v hv
    unfold postEntryState updateUsers at hv
    dsimp only at hv
    rw [List.mem_map] at hv
    obtain ⟨x, hx, hxv⟩ := hv
    dsimp only [entryRowOf] at hxv
    by_cases hxid : x.id = p.userId
    · rw [if_pos hxid] at hxv
      subst hxv
      dsimp only
      rw [calc_postEntryState]
      dsimp only [entryRowOf]
      rw [if_pos hxid.symm]
      rw [hcons x hx]
    · rw [if_neg hxid] at hxv
      subst hxv
      rw [calc_postEntryState]
      dsimp only [entryRowOf]
      rw [if_neg (fun hh => hxid hh.symm)]
      rw [add_zero]
      exact hcons x hx
  · intro v hv
    unfold postEntryState updateUsers at hv
    dsimp only at hv
    rw [List.mem_map] at hv
    obtain ⟨x, hx, hxv⟩ := hv
    dsimp only [entryRowOf] at hxv
    by_cases hxid : x.id = p.userId
    · rw [if_pos hxid] at hxv
      subst hxv
      dsimp only
      have hxb : x.balance = u.balance := by
        rw [hcons x hx, hxid, ← hub]
      rw [hxb]
      exact hnn
    · rw [if_neg hxid] at hxv
      subst hxv
      exact hpos x hx

/-- Inversion: a successful `createEntryIntended` run preserves the combined
invariant. -/
theorem createEntryIntended_ok_inv (p : EntryParams) (st : DBState) (row : LedgerRow)
    (st2 : DBState) (hInv : LedgerInv st)
    (hok : createEntryIntended p st = .ok (row, st2)) : LedgerInv st2 := by
  unfold createEntryIntended at hok
  cases hval : _validateEntryParams p with
  | error e => rw [hval] at hok; simp at hok
  | ok u0 =>
    rw [hval] at hok
    unfold createEntryWithLock lockUserQueryIntended at hok
    cases hfind : st.users.find? (fun x => x.id = p.userId) with
    | none => rw [hfind] at hok; simp at hok
    | some u =>
      rw [hfind] at hok
      dsimp only at hok
      by_cases hguard : p.amount.toRat < 0 ∧ u.balance + p.amount.toRat < 0
      · rw [if_pos hguard] at hok; simp at hok
      · rw [if_neg hguard] at hok
        unfold insertLedgerRow update_user_balance at hok
        dsimp only at hok
        rw [find?_updateUsers _ _ _ _ hfind] at hok
        dsimp only at hok
        by_cases hnb : u.balance + p.amount.toRat < 0
        · rw [if_pos hnb] at hok; simp at hok
        · rw [if_neg hnb] at hok
          dsimp only at hok
          rw [find?_updateUsers _ _ _ _ hfind] at hok
          dsimp only at hok
          rw [if_neg (by rw [sub_self, abs_zero]; norm_num)] at hok
          rw [Except.ok.injEq, Prod.mk.injEq] at hok
          obtain ⟨hrow, hst2⟩ := hok
          subst hst2
          exact postEntryState_preserves_inv st p u hInv hfind (not_lt.mp hnb)

/-- Inversion: a successful intended `approveSubmission` body preserves the
combined invariant (the status, view-counter and log updates do not touch the
users or ledger tables). -/
theorem approveIntended_ok_inv (sid aid : String) (st : DBState) (r : ApproveResult)
    (stF : DBState) (hInv : LedgerInv st)
    (hok : approveSubmissionWith createEntryIntended sid aid st = .ok (r, stF)) :
    LedgerInv stF := by
  unfold approveSubmissionWith at hok
  cases hs : st.submissions.find? (fun s => s.id = sid) with
  | none => rw [hs] at hok; simp at hok
  | some submission =>
    rw [hs] at hok
    dsimp only at hok
    split_ifs at hok with h1 h2 h3
    · cases had : (setSubmissionStatus st sid "under_review").ads.find? (fun a => a.id = submission.adId) with
      | none => rw [had] at hok; simp at hok
      | some ad =>
        rw [had] at hok
        dsimp only at hok
        cases hce : createEntryIntended { userId := submission.userId, type := "ad_payout", amount := .num ad.payoutPerView, referenceType := "submission", referenceId := sid } (setSubmissionStatus st sid "under_review") with
        | error e => rw [hce] at hok; simp at hok
        | ok pr =>
          obtain ⟨row, st2⟩ := pr
          rw [hce] at hok
          dsimp only at hok
          rw [Except.ok.injEq, Prod.mk.injEq] at hok
          obtain ⟨hr, hstF⟩ := hok
          subst hstF
          have hInv1 : LedgerInv (setSubmissionStatus st sid "under_review") := hInv
          exact createEntryIntended_ok_inv _ _ row st2 hInv1 hce
    · cases had : st.ads.find? (fun a => a.id = submission.adId) with
      | none => rw [had] at hok; simp at hok
      | some ad =>
        rw [had] at hok
        dsimp only at hok
        cases hce : createEntryIntended { userId := submission.userId, type := "ad_payout", amount := .num ad.payoutPerView, referenceType := "submission", referenceId := sid } st with
        | error e => rw [hce] at hok; simp at hok
        | ok pr =>
          obtain ⟨row, st2⟩ := pr
          rw [hce] at hok
          dsimp only at hok
          rw [Except.ok.injEq, Prod.mk.injEq] at hok
          obtain ⟨hr, hstF⟩ := hok
          subst hstF
          exact createEntryIntended_ok_inv _ _ row st2 hInv hce

/-- Inversion: a successful intended `processWithdrawal` body preserves the
combined invariant. -/
theorem processIntended_ok_inv (wid aid : String) (st : DBState) (r : ProcessResult)
    (stF : DBState) (hInv : LedgerInv st)
    (hok : processWithdrawalWith createEntryIntended wid aid st = .ok (r, stF)) :
    LedgerInv stF := by
  unfold processWithdrawalWith at hok
  cases hw : st.withdrawals.find? (fun w => w.id = wid) with
  | none => rw [hw] at hok; simp at hok
  | some w =>
    rw [hw] at hok
    dsimp only at hok
    split_ifs at hok with h1
    cases hce : createEntryIntended { userId := w.userId, type := "withdrawal", amount := .num (-w.amount), referenceType := "withdrawal", referenceId := wid } st with
    | error e => rw [hce] at hok; simp at hok
    | ok pr =>
      obtain ⟨row, st2⟩ := pr
      rw [hce] at hok
      dsimp only at hok
      rw [Except.ok.injEq, Prod.mk.injEq] at hok
      obtain ⟨hr, hstF⟩ := hok
      subst hstF
      exact createEntryIntended_ok_inv _ _ row st2 hInv hce

/-- Inversion: a successful intended `failWithdrawal` body preserves the
combined invariant. -/
theorem failIntended_ok_inv (wid aid reason : String) (st : DBState) (r : FailResult)
    (stF : DBState) (hInv : LedgerInv st)
    (hok : failWithdrawalWith createEntryIntended wid aid reason st = .ok (r, stF)) :
    LedgerInv stF := by
  unfold failWithdrawalWith at hok
  split_ifs at hok with h0
  cases hw : st.withdrawals.find? (fun w => w.id = wid) with
  | none => rw [hw] at hok; simp at hok
  | some w =>
    rw [hw] at hok
    dsimp only at hok
    split_ifs at hok with h1
    cases hce : createEntryIntended { userId := w.userId, type := "refund", amount := .num w.amount, referenceType := "withdrawal", referenceId := wid } st with
    | error e => rw [hce] at hok; simp at hok
    | ok pr =>
      obtain ⟨row, st2⟩ := pr
      rw [hce] at hok
      dsimp only at hok
      rw [Except.ok.injEq, Prod.mk.injEq] at hok
      obtain ⟨hr, hstF⟩ := hok
      subst hstF
      exact createEntryIntended_ok_inv _ _ row st2 hInv hce

/-- With the spec-intended lock query, every operation — succeeding or rolled
back — preserves the combined invariant. -/
theorem stepOpIntended_preserves (op : Op) (st : DBState) (h : LedgerInv st) :
    LedgerInv (stepOpIntended op st) := by
  cases op with
  | createEntry p =>
    cases hce : createEntryIntended p st with
    | error e =>
      simp only [stepOpIntended, createEntryTxIntended, runTransaction, hce]
      exact h
    | ok pr =>
      obtain ⟨row, st2⟩ := pr
      simp only [stepOpIntended, createEntryTxIntended, runTransaction, hce]
      exact createEntryIntended_ok_inv _ _ row st2 h hce
  | approveSubmission sid aid =>
    cases hap : approveSubmissionWith createEntryIntended sid aid st with
    | error e =>
      simp only [stepOpIntended, approveSubmissionIntended, runTransaction, hap]
      exact h
    | ok pr =>
      obtain ⟨r, stF⟩ := pr
      simp only [stepOpIntended, approveSubmissionIntended, runTransaction, hap]
      exact approveIntended_ok_inv sid aid st r stF h hap
  | processWithdrawal wid aid =>
    cases hp : processWithdrawalWith createEntryIntended wid aid st with
    | error e =>
      simp only [stepOpIntended, processWithdrawalIntended, runTransaction, hp]
      exact h
    | ok pr =>
      obtain ⟨r, stF⟩ := pr
      simp only [stepOpIntended, processWithdrawalIntended, runTransaction, hp]
      exact processIntended_ok_inv wid aid st r stF h hp
  | failWithdrawal wid aid reason =>
    cases hf : failWithdrawalWith createEntryIntended wid aid reason st with
    | error e =>
      simp only [stepOpIntended, failWithdrawalIntended, runTransaction, hf]
      exact h
    | ok pr =>
      obtain ⟨r, stF⟩ := pr
      simp only [stepOpIntended, failWithdrawalIntended, runTransaction, hf]
      exact failIntended_ok_inv wid aid reason st r stF h hf

/-- With the spec-intended lock query, the ledger invariant — every stored
balance equals the ledger sum and is non-negative — holds after every
operation sequence.  This is the non-trivial counterpart of claims C1 and C2:
balances are only ever moved together with a matching ledger row, overdrafts
are rejected, and failed operations roll back. -/
theorem inv_preserved_intended (ops : List Op) (st0 : DBState) (h : LedgerInv st0) :
    LedgerInv (runOpsIntended ops st0) := by
  induction ops generalizing st0 with
  | nil => exact h
  | cons op ops ih =>
    show LedgerInv (runOpsIntended ops (stepOpIntended op st0))
    exact ih _ (stepOpIntended_preserves op st0 h)

/-- With the spec-intended lock query, reconciliation finds no mismatches
after any operation sequence from a consistent state. -/
theorem findBalanceMismatches_nil_intended (ops : List Op) (st0 : DBState)
    (h : LedgerInv st0) : findBalanceMismatches (runOpsIntended ops st0) = [] :=
  findBalanceMismatches_eq_nil _ (inv_preserved_intended ops st0 h).1

/-- The validator succeeds on parameters that meet all five preconditions. -/
theorem validateEntryParams_ok (uid ty : String) (q : ℚ) (refType refId : String)
    (huid : uid ≠ "") (hty : isValidEnum ty TRANSACTION_TYPES = true)
    (hq : q ≠ 0) (href : isValidEnum refType REFERENCE_TYPES = true) (hrid : refId ≠ "") :
    _validateEntryParams { userId := uid, type := ty, amount := .num q, referenceType := refType, referenceId := refId } = .ok () := by
  unfold _validateEntryParams
  dsimp only
  rw [if_neg huid, if_neg (by simp [hty]), if_neg (by simp [JsNum.isFiniteNum]),
    if_neg (by simp [hq]), if_neg (by simp [href]), if_neg hrid]

/-- The submission-status `UPDATE` moves the first matching row to its
updated image; ids are unchanged. -/
theorem find?_setStatusSub (l : List SubmissionRow) (sid status : String) (s : SubmissionRow)
    (h : l.find? (fun x => x.id = sid) = some s) :
    (l.map fun x => if x.id = sid then { x with status := status } else x).find?
      (fun x => x.id = sid) = some { s with status := status } := by
  induction l with
  | nil => simp [List.find?] at h
  | cons x xs ih =>
    by_cases hx : x.id = sid
    · rw [List.find?_cons_of_pos _ (by simp [hx])] at h
      injection h with h
      subst h
      simp only [List.map_cons, if_pos hx]
      exact List.find?_cons_of_pos _ (by simp [hx])
    · rw [List.find?_cons_of_neg _ (by simp [hx])] at h
      simp only [List.map_cons, if_neg hx]
      rw [List.find?_cons_of_neg _ (by simp [hx])]
      exact ih h

/-- The withdrawal-status `UPDATE` moves the first matching row to its
updated image; ids are unchanged. -/
theorem find?_setStatusWith (l : List WithdrawalRow) (wid status : String) (w : WithdrawalRow)
    (h : l.find? (fun x => x.id = wid) = some w) :
    (l.map fun x => if x.id = wid then { x with status := status } else x).find?
      (fun x => x.id = wid) = some { w with status := status } := by
  induction l with
  | nil => simp [List.find?] at h
  | cons x xs ih =>
    by_cases hx : x.id = wid
    · rw [List.find?_cons_of_pos _ (by simp [hx])] at h
      injection h with h
      subst h
      simp only [List.map_cons, if_pos hx]
      exact List.find?_cons_of_pos _ (by simp [hx])
    · rw [List.find?_cons_of_neg _ (by simp [hx])] at h
      simp only [List.map_cons, if_neg hx]
      rw [List.find?_cons_of_neg _ (by simp [hx])]
      exact ih h

/-- With the spec-intended lock query, claim C6 is exact: approving a pending
submission (for an existing user and an ad with a positive payout) returns
status approved and writes exactly one ad_payout entry referencing
`(submission, sid)`, and a second approval fails with
`InvalidStateError("approved", "approved")`, leaving the state unchanged. -/
theorem approve_twice_intended (sid aid aid2 : String) (st : DBState)
    (s : SubmissionRow) (ad : AdRow) (u : UserRow)
    (hs : st.submissions.find? (fun x => x.id = sid) = some s)
    (hstatus : s.status = "pending")
    (had : st.ads.find? (fun a => a.id = s.adId) = some ad)
    (hpay : 0 < ad.payoutPerView)
    (hu : st.users.find? (fun x => x.id = s.userId) = some u)
    (hub : 0 ≤ u.balance)
    (huid : s.userId ≠ "") (hsid : sid ≠ "")
    (hzero : payoutEntriesFor st sid = 0) :
    ∃ st1,
      approveSubmissionIntended sid aid st =
        (.ok ⟨sid, "approved", ad.payoutPerView, s.userId⟩, st1) ∧
      payoutEntriesFor st1 sid = 1 ∧
      approveSubmissionIntended sid aid2 st1 =
        (.error (.invalidStateError "approved" "approved"), st1) := by
  have hval : _validateEntryParams { userId := s.userId, type := "ad_payout", amount := .num ad.payoutPerView, referenceType := "submission", referenceId := sid } = .ok () :=
    validateEntryParams_ok s.userId "ad_payout" ad.payoutPerView "submission" sid huid (by decide) (ne_of_gt hpay) (by decide) hsid
  have hu1 : (setSubmissionStatus st sid "under_review").users.find? (fun x => x.id = s.userId) = some u := hu
  have hguard : ¬(JsNum.toRat (.num ad.payoutPerView) < 0 ∧ u.balance + JsNum.toRat (.num ad.payoutPerView) < 0) := by
    intro hc
    exact absurd hc.1 (not_lt.mpr (le_of_lt hpay))
  have hnn : 0 ≤ u.balance + JsNum.toRat (.num ad.payoutPerView) := by
    dsimp only [JsNum.toRat]
    linarith
  have hce := createEntryIntended_ok { userId := s.userId, type := "ad_payout", amount := .num ad.payoutPerView, referenceType := "submission", referenceId := sid } (setSubmissionStatus st sid "under_review") u hval hu1 hguard hnn
  have had1 : (setSubmissionStatus st sid "under_review").ads.find? (fun a => a.id = s.adId) = some ad := had
  have happrove : approveSubmissionIntended sid aid st = (.ok { submissionId := sid, status := "approved", payoutAmount := ad.payoutPerView, userId := s.userId }, logAdminAction (bumpAdViews (setSubmissionStatus (postEntryState (setSubmissionStatus st sid "under_review") (entryRowOf { userId := s.userId, type := "ad_payout", amount := .num ad.payoutPerView, referenceType := "submission", referenceId := sid } u.balance)) sid "approved") s.adId) aid "approve_submission" "submission" sid) := by
    unfold approveSubmissionIntended runTransaction approveSubmissionWith
    rw [hs]
    dsimp only
    rw [if_neg (by rw [hstatus]; decide), if_neg (by rw [hstatus]; decide), if_pos hstatus]
    rw [had1]
    dsimp only
    rw [hce]
  refine ⟨_, happrove, ?_, ?_⟩
  · simp only [payoutEntriesFor, logAdminAction, bumpAdViews, setSubmissionStatus, postEntryState]
    rw [List.countP_append]
    unfold payoutEntriesFor at hzero
    rw [hzero]
    simp [entryRowOf, List.countP_cons]
  · have hs2a : (st.submissions.map fun x => if x.id = sid then { x with status := "under_review" } else x).find? (fun x => x.id = sid) = some { s with status := "under_review" } :=
      find?_setStatusSub _ _ _ _ hs
    have hs2b : ((st.submissions.map fun x => if x.id = sid then { x with status := "under_review" } else x).map fun x => if x.id = sid then { x with status := "approved" } else x).find? (fun x => x.id = sid) = some { s with status := "approved" } :=
      find?_setStatusSub _ sid "approved" { s with status := "under_review" } hs2a
    have hs2 : (logAdminAction (bumpAdViews (setSubmissionStatus (postEntryState (setSubmissionStatus st sid "under_review") (entryRowOf { userId := s.userId, type := "ad_payout", amount := .num ad.payoutPerView, referenceType := "submission", referenceId := sid } u.balance)) sid "approved") s.adId) aid "approve_submission" "submission" sid).submissions.find? (fun x => x.id = sid) = some { s with status := "approved" } := hs2b
    unfold approveSubmissionIntended runTransaction approveSubmissionWith
    rw [hs2]
    dsimp only
    rw [if_pos rfl]

/-- With the spec-intended lock query, claim C7 is exact: processing a pending
withdrawal debits the user by exactly the withdrawal amount with one
withdrawal-type entry referencing `(withdrawal, wid)` and moves the status to
processing; the second call fails with
`InvalidStateError("processing", "processing")` and changes nothing. -/
theorem process_twice_intended (wid aid aid2 : String) (st : DBState)
    (w : WithdrawalRow) (u : UserRow)
    (hw : st.withdrawals.find? (fun x => x.id = wid) = some w)
    (hstatus : w.status = "pending")
    (hu : st.users.find? (fun x => x.id = w.userId) = some u)
    (hamt : 0 < w.amount) (hbal : w.amount ≤ u.balance)
    (huid : w.userId ≠ "") (hwid : wid ≠ "")
    (hzero : debitEntriesFor st wid = 0) :
    ∃ st1,
      processWithdrawalIntended wid aid st = (.ok ⟨wid, "processing", w.userId, w.amount⟩, st1) ∧
      debitEntriesFor st1 wid = 1 ∧
      getBalance st1 w.userId = .ok (u.balance - w.amount) ∧
      processWithdrawalIntended wid aid2 st1 =
        (.error (.invalidStateError "processing" "processing"), st1) := by
  have hval : _validateEntryParams { userId := w.userId, type := "withdrawal", amount := .num (-w.amount), referenceType := "withdrawal", referenceId := wid } = .ok () :=
    validateEntryParams_ok w.userId "withdrawal" (-w.amount) "withdrawal" wid huid (by decide) (neg_ne_zero.mpr (ne_of_gt hamt)) (by decide) hwid
  have hguard : ¬(JsNum.toRat (.num (-w.amount)) < 0 ∧ u.balance + JsNum.toRat (.num (-w.amount)) < 0) := by
    intro hc
    have := hc.2
    dsimp only [JsNum.toRat] at this
    linarith
  have hnn : 0 ≤ u.balance + JsNum.toRat (.num (-w.amount)) := by
    dsimp only [JsNum.toRat]
    linarith
  have hce := createEntryIntended_ok { userId := w.userId, type := "withdrawal", amount := .num (-w.amount), referenceType := "withdrawal", referenceId := wid } st u hval hu hguard hnn
  have hprocess : processWithdrawalIntended wid aid st = (.ok { withdrawalId := wid, status := "processing", userId := w.userId, amount := w.amount }, logAdminAction (setWithdrawalStatus (postEntryState st (entryRowOf { userId := w.userId, type := "withdrawal", amount := .num (-w.amount), referenceType := "withdrawal", referenceId := wid } u.balance)) wid "processing") aid "process_withdrawal" "withdrawal" wid) := by
    unfold processWithdrawalIntended runTransaction processWithdrawalWith
    rw [hw]
    dsimp only
    rw [if_neg (fun hne => hne hstatus)]
    rw [hce]
  refine ⟨_, hprocess, ?_, ?_, ?_⟩
  · simp only [debitEntriesFor, logAdminAction, setWithdrawalStatus, postEntryState]
    rw [List.countP_append]
    unfold debitEntriesFor at hzero
    rw [hzero]
    simp [entryRowOf, List.countP_cons]
  · have hbal1 : (logAdminAction (setWithdrawalStatus (postEntryState st (entryRowOf { userId := w.userId, type := "withdrawal", amount := .num (-w.amount), referenceType := "withdrawal", referenceId := wid } u.balance)) wid "processing") aid "process_withdrawal" "withdrawal" wid).users.find? (fun x => x.id = w.userId) = some { u with balance := u.balance + -w.amount } :=
      find?_updateUsers st.users w.userId (-w.amount) u hu
    unfold getBalance
    rw [hbal1]
    dsimp only
    rw [← sub_eq_add_neg]
  · have hw2 : (logAdminAction (setWithdrawalStatus (postEntryState st (entryRowOf { userId := w.userId, type := "withdrawal", amount := .num (-w.amount), referenceType := "withdrawal", referenceId := wid } u.balance)) wid "processing") aid "process_withdrawal" "withdrawal" wid).withdrawals.find? (fun x => x.id = wid) = some { w with status := "processing" } :=
      find?_setStatusWith st.withdrawals wid "processing" w hw
    unfold processWithdrawalIntended runTransaction processWithdrawalWith
    rw [hw2]
    dsimp only
    rw [if_pos (by decide)]

/-- With the spec-intended lock query, claim C8 is exact: processing then
failing a withdrawal leaves the balance at `b - a` in between, writes exactly
one refund entry whose amount is exactly the original withdrawal amount, and
returns the balance to exactly `b`. -/
theorem roundtrip_intended (wid aid aid2 reason : String) (st : DBState)
    (w : WithdrawalRow) (u : UserRow)
    (hw : st.withdrawals.find? (fun x => x.id = wid) = some w)
    (hstatus : w.status = "pending")
    (hu : st.users.find? (fun x => x.id = w.userId) = some u)
    (hamt : 0 < w.amount) (hbal : w.amount ≤ u.balance)
    (huid : w.userId ≠ "") (hwid : wid ≠ "")
    (hreason : ¬((jsTrim reason).length < 10))
    (hzero : refundEntriesFor st wid = 0) :
    ∃ st1 st2,
      processWithdrawalIntended wid aid st = (.ok ⟨wid, "processing", w.userId, w.amount⟩, st1) ∧
      getBalance st1 w.userId = .ok (u.balance - w.amount) ∧
      failWithdrawalIntended wid aid2 reason st1 = (.ok ⟨wid, "failed", reason, true⟩, st2) ∧
      refundEntriesFor st2 wid = 1 ∧
      getBalance st2 w.userId = .ok u.balance ∧
      ∃ r ∈ st2.ledger, r.type = "refund" ∧ r.referenceType = "withdrawal" ∧
        r.referenceId = wid ∧ r.amount = w.amount := by
  have hval : _validateEntryParams { userId := w.userId, type := "withdrawal", amount := .num (-w.amount), referenceType := "withdrawal", referenceId := wid } = .ok () :=
    validateEntryParams_ok w.userId "withdrawal" (-w.amount) "withdrawal" wid huid (by decide) (neg_ne_zero.mpr (ne_of_gt hamt)) (by decide) hwid
  have hguard : ¬(JsNum.toRat (.num (-w.amount)) < 0 ∧ u.balance + JsNum.toRat (.num (-w.amount)) < 0) := by
    intro hc
    have := hc.2
    dsimp only [JsNum.toRat] at this
    linarith
  have hnn : 0 ≤ u.balance + JsNum.toRat (.num (-w.amount)) := by
    dsimp only [JsNum.toRat]
    linarith
  have hce := createEntryIntended_ok { userId := w.userId, type := "withdrawal", amount := .num (-w.amount), referenceType := "withdrawal", referenceId := wid } st u hval hu hguard hnn
  have hprocess : processWithdrawalIntended wid aid st = (.ok { withdrawalId := wid, status := "processing", userId := w.userId, amount := w.amount }, logAdminAction (setWithdrawalStatus (postEntryState st (entryRowOf { userId := w.userId, type := "withdrawal", amount := .num (-w.amount), referenceType := "withdrawal", referenceId := wid } u.balance)) wid "processing") aid "process_withdrawal" "withdrawal" wid) := by
    unfold processWithdrawalIntended runTransaction processWithdrawalWith
    rw [hw]
    dsimp only
    rw [if_neg (fun hne => hne hstatus)]
    rw [hce]
  have hbal1 : (logAdminAction (setWithdrawalStatus (postEntryState st (entryRowOf { userId := w.userId, type := "withdrawal", amount := .num (-w.amount), referenceType := "withdrawal", referenceId := wid } u.balance)) wid "processing") aid "process_withdrawal" "withdrawal" wid).users.find? (fun x => x.id = w.userId) = some { u with balance := u.balance + -w.amount } :=
    find?_updateUsers st.users w.userId (-w.amount) u hu
  have hw2 : (logAdminAction (setWithdrawalStatus (postEntryState st (entryRowOf { userId := w.userId, type := "withdrawal", amount := .num (-w.amount), referenceType := "withdrawal", referenceId := wid } u.balance)) wid "processing") aid "process_withdrawal" "withdrawal" wid).withdrawals.find? (fun x => x.id = wid) = some { w with status := "processing" } :=
    find?_setStatusWith st.withdrawals wid "processing" w hw
  have hval2 : _validateEntryParams { userId := w.userId, type := "refund", amount := .num w.amount, referenceType := "withdrawal", referenceId := wid } = .ok () :=
    validateEntryParams_ok w.userId "refund" w.amount "withdrawal" wid huid (by decide) (ne_of_gt hamt) (by decide) hwid
  have hguard2 : ¬(JsNum.toRat (.num w.amount) < 0 ∧ ({ u with balance := u.balance + -w.amount } : UserRow).balance + JsNum.toRat (.num w.amount) < 0) := by
    intro hc
    have := hc.1
    dsimp only [JsNum.toRat] at this
    linarith
  have hnn2 : 0 ≤ ({ u with balance := u.balance + -w.amount } : UserRow).balance + JsNum.toRat (.num w.amount) := by
    dsimp only [JsNum.toRat]
    linarith
  have hce2 := createEntryIntended_ok { userId := w.userId, type := "refund", amount := .num w.amount, referenceType := "withdrawal", referenceId := wid } (logAdminAction (setWithdrawalStatus (postEntryState st (entryRowOf { userId := w.userId, type := "withdrawal", amount := .num (-w.amount), referenceType := "withdrawal", referenceId := wid } u.balance)) wid "processing") aid "process_withdrawal" "withdrawal" wid) { u with balance := u.balance + -w.amount } hval2 hbal1 hguard2 hnn2
  have hfail : failWithdrawalIntended wid aid2 reason (logAdminAction (setWithdrawalStatus (postEntryState st (entryRowOf { userId := w.userId, type := "withdrawal", amount := .num (-w.amount), referenceType := "withdrawal", referenceId := wid } u.balance)) wid "processing") aid "process_withdrawal" "withdrawal" wid) = (.ok { withdrawalId := wid, status := "failed", reason := reason, refunded := true }, logAdminAction (setWithdrawalStatus (postEntryState (logAdminAction (setWithdrawalStatus (postEntryState st (entryRowOf { userId := w.userId, type := "withdrawal", amount := .num (-w.amount), referenceType := "withdrawal", referenceId := wid } u.balance)) wid "processing") aid "process_withdrawal" "withdrawal" wid) (entryRowOf { userId := w.userId, type := "refund", amount := .num w.amount, referenceType := "withdrawal", referenceId := wid } ({ u with balance := u.balance + -w.amount } : UserRow).balance)) wid "failed") aid2 "fail_withdrawal" "withdrawal" wid) := by
    unfold failWithdrawalIntended runTransaction failWithdrawalWith
    rw [if_neg hreason]
    rw [hw2]
    dsimp only
    rw [if_neg (by decide)]
    rw [hce2]
  refine ⟨_, _, hprocess, ?_, hfail, ?_, ?_, ?_⟩
  · unfold getBalance
    rw [hbal1]
    dsimp only
    rw [← sub_eq_add_neg]
  · simp only [refundEntriesFor, logAdminAction, setWithdrawalStatus, postEntryState]
    rw [List.countP_append, List.countP_append]
    unfold refundEntriesFor at hzero
    rw [hzero]
    simp [entryRowOf, List.countP_cons]
  · have hbal2 : (logAdminAction (setWithdrawalStatus (postEntryState (logAdminAction (setWithdrawalStatus (postEntryState st (entryRowOf { userId := w.userId, type := "withdrawal", amount := .num (-w.amount), referenceType := "withdrawal", referenceId := wid } u.balance)) wid "processing") aid "process_withdrawal" "withdrawal" wid) (entryRowOf { userId := w.userId, type := "refund", amount := .num w.amount, referenceType := "withdrawal", referenceId := wid } ({ u with balance := u.balance + -w.amount } : UserRow).balance)) wid "failed") aid2 "fail_withdrawal" "withdrawal" wid).users.find? (fun x => x.id = w.userId) = some { u with balance := u.balance + -w.amount + w.amount } :=
      find?_updateUsers _ w.userId w.amount { u with balance := u.balance + -w.amount } hbal1
    unfold getBalance
    rw [hbal2]
    dsimp only
    rw [show u.balance + -w.amount + w.amount = u.balance by ring]
  · refine ⟨entryRowOf { userId := w.userId, type := "refund", amount := .num w.amount, referenceType := "withdrawal", referenceId := wid } ({ u with balance := u.balance + -w.amount } : UserRow).balance, ?_, rfl, rfl, rfl, rfl⟩
    show _ ∈ (_ ++ [_] : List LedgerRow)
    exact List.mem_append_right _ (List.mem_singleton.mpr rfl)

end Onit
